import Mathlib

/-!
# RocketVM: value metatable / environment resolution and buffered file reads

A shallow embedding of `src/Value.cpp` (metatable and environment accessors of
the dynamic value model) and of the buffered readers of `src/AuxLib/liolib.c`.

Memory is modelled in the component style: every struct type owns a map from
addresses to records, all maps share one address space, and a `Gc_Object*`
is the bare address.  A null `Table*` is `none`.
-/

namespace Rocket

/-! ## Data model of Value.cpp -/

/-- Address of a collector-owned object (`Gc_Object*`). -/
abbrev Addr := Nat

/-- Modelled from the spec: the tag enumeration of `State.h`, which is not among
the sources.  The spec lists nil, boolean, number, string, table, function,
user-data and thread values, plus light user-data; `Value.cpp` itself names
only `TAG_TABLE`, `TAG_USERDATA`, `TAG_FUNCTION` and `TAG_THREAD`. -/
inductive Tag where
  | TAG_NIL
  | TAG_BOOLEAN
  | TAG_LIGHTUSERDATA
  | TAG_NUMBER
  | TAG_STRING
  | TAG_TABLE
  | TAG_FUNCTION
  | TAG_USERDATA
  | TAG_THREAD
  deriving DecidableEq

/-- A tagged value.  The union members `table`, `userData` and `closure` are
pointers stored in the same cell, here `payload`. -/
structure Value where
  tag : Tag
  payload : Nat
  deriving DecidableEq

/-- The pointer member `value->table`. -/
def Value.table (value : Value) : Addr := value.payload

/-- The pointer member `value->userData`. -/
def Value.userData (value : Value) : Addr := value.payload

/-- The pointer member `value->closure`. -/
def Value.closure (value : Value) : Addr := value.payload

/-- The struct `Table` of `Table.h` (the `Gc_Object` header is the collector's). -/
structure Table where
  numNodes : Int
  nodes : Addr
  metatable : Option Addr
  deriving DecidableEq

/-- The fields of `UserData` that `Value.cpp` touches. -/
structure UserData where
  metatable : Option Addr
  env : Option Addr
  deriving DecidableEq

/-- The field of `Closure` that `Value.cpp` touches. -/
structure Closure where
  env : Option Addr
  deriving DecidableEq

/-- The field of `lua_State` that `Value.cpp` touches: the array
`metatable[NUM_TYPES]` of per-type metatables, as a map from index to cell. -/
structure lua_State where
  metatable : Nat → Option Addr

/-- The machine state the functions of `Value.cpp` run in: the VM state `L`,
the objects in memory, and the record of write-barrier calls received by the
collector, oldest first. -/
structure Machine where
  L : lua_State
  tables : Addr → Table
  userDatas : Addr → UserData
  closures : Addr → Closure
  barriers : List (Addr × Option Addr)

/-- Modelled from the spec: `Gc_WriteBarrier(L, parent, child)` of the collector
(`Gc.h` is not among the sources).  The collector is a test double that records
the (holder, referent) pair of every call. -/
def Gc_WriteBarrier (M : Machine) (parent : Addr) (child : Option Addr) : Machine :=
  { M with barriers := M.barriers ++ [(parent, child)] }

/-! ## Value.cpp

`NUM_TYPES` and `Value_GetType` come from headers that are not among the
sources and are parameters.  A failed `assert` is the result `none`. -/

/-- The function `Value_SetMetatable(L, value, table)` of Value.cpp, lines 16-44. -/
def Value_SetMetatable (NUM_TYPES : Int) (Value_GetType : Value → Int)
    (M : Machine) (value : Value) (table : Option Addr) : Option Machine :=
  match value.tag with
  | .TAG_TABLE =>
    let M1 : Machine :=
      { M with tables := Function.update M.tables value.table
                 { M.tables value.table with metatable := table } }
    if table ≠ none then some (Gc_WriteBarrier M1 value.table table) else some M1
  | .TAG_USERDATA =>
    let M1 : Machine :=
      { M with userDatas := Function.update M.userDatas value.userData
                 { M.userDatas value.userData with metatable := table } }
    if table ≠ none then some (Gc_WriteBarrier M1 value.userData table) else some M1
  | _ =>
    let type := Value_GetType value
    if 0 ≤ type ∧ type < NUM_TYPES then
      some { M with L := { M.L with
                 metatable := Function.update M.L.metatable type.toNat table } }
    else none

/-- The function `Value_GetMetatable(L, value)` of Value.cpp, lines 46-59: the
returned table and the machine state after the call. -/
def Value_GetMetatable (NUM_TYPES : Int) (Value_GetType : Value → Int)
    (M : Machine) (value : Value) : Option (Option Addr × Machine) :=
  match value.tag with
  | .TAG_TABLE => some ((M.tables value.table).metatable, M)
  | .TAG_USERDATA => some ((M.userDatas value.userData).metatable, M)
  | _ =>
    let type := Value_GetType value
    if 0 ≤ type ∧ type < NUM_TYPES then
      some (M.L.metatable type.toNat, M)
    else none

/-- The function `Value_SetEnv(L, value, table)` of Value.cpp, lines 61-79: the
returned int and the machine state after the call. -/
def Value_SetEnv (M : Machine) (value : Value) (table : Option Addr) :
    Option (Int × Machine) :=
  match value.tag with
  | .TAG_FUNCTION =>
    let M1 : Machine :=
      { M with closures := Function.update M.closures value.closure
                 { M.closures value.closure with env := table } }
    some (1, Gc_WriteBarrier M1 value.closure table)
  | .TAG_THREAD => none
  | .TAG_USERDATA =>
    let M1 : Machine :=
      { M with userDatas := Function.update M.userDatas value.userData
                 { M.userDatas value.userData with env := table } }
    some (1, Gc_WriteBarrier M1 value.userData table)
  | _ => some (0, M)

/-- The function `Value_GetEnv(value)` of Value.cpp, lines 81-95: the returned
table and the machine state after the call. -/
def Value_GetEnv (M : Machine) (value : Value) : Option (Option Addr × Machine) :=
  match value.tag with
  | .TAG_FUNCTION => some ((M.closures value.closure).env, M)
  | .TAG_THREAD => none
  | .TAG_USERDATA => some ((M.userDatas value.userData).env, M)
  | _ => some (none, M)

/-! ## Sample inputs -/

/-- A sample `Value_GetType`: the type code of standard Lua for each tag. -/
def sampleGetType (value : Value) : Int :=
  match value.tag with
  | .TAG_NIL => 0
  | .TAG_BOOLEAN => 1
  | .TAG_LIGHTUSERDATA => 2
  | .TAG_NUMBER => 3
  | .TAG_STRING => 4
  | .TAG_TABLE => 5
  | .TAG_FUNCTION => 6
  | .TAG_USERDATA => 7
  | .TAG_THREAD => 8

/-- Per-type metatables of the sample machine: strings share the metatable at
address 40. -/
def sampleState : lua_State :=
  { metatable := fun i => if i = 4 then some 40 else none }

/-- Tables of the sample machine: the table at address 1 has the table at
address 2 as metatable. -/
def sampleTables : Addr → Table :=
  fun a => { numNodes := 0, nodes := 0, metatable := if a = 1 then some 2 else none }

/-- Closures of the sample machine: the closure at address 7 has the table at
address 2 as environment. -/
def sampleClosures : Addr → Closure :=
  fun a => { env := if a = 7 then some 2 else none }

/-- A sample machine on which the collector has received no write-barrier call. -/
def sampleMachine : Machine :=
  { L := sampleState,
    tables := sampleTables,
    userDatas := fun _ => { metatable := none, env := none },
    closures := sampleClosures,
    barriers := [] }

/-! ## liolib.c: buffered reads

`LUAL_BUFFERSIZE` comes from `lauxlib.h`, which is not among the sources, and
is a parameter.  A C array is a map from index to byte.  Loops take a fuel
argument and give `none` when it runs out; a library call whose behaviour
ISO C leaves undefined gives `none` as well. -/

/-- A `char`. -/
abbrev Byte := Nat

/-- A region of memory, addressed from its start. -/
abbrev Mem := Nat → Byte

/-- The struct `File` of liolib.c.  The `handle` stands for the underlying
stream: the bytes that the read callback has not delivered yet. -/
structure File where
  handle : List Byte
  buffer : Mem
  bufferLength : Nat
  bufferPos : Nat

/-- A read callback `luaL_FileRead`: from the stream and the requested size to
the bytes it stores at the destination (their number is the value it returns)
and the stream afterwards. -/
abbrev luaL_FileRead := List Byte → Nat → List Byte × List Byte

/-- The callback `stdio_read` of liolib.c, line 797: `fread(dst, 1, size, handle)`. -/
def stdio_read : luaL_FileRead :=
  fun handle size => (handle.take size, handle.drop size)

/-- The memory `dst` after a callback has stored `bytes` at its start. -/
def storeBytes (dst : Mem) (bytes : List Byte) : Mem :=
  fun i => if i < bytes.length then bytes.getD i 0 else dst i

/-- The C library call `memcpy(dst, src, n)`. -/
def memcpy (dst src : Mem) (n : Nat) : Mem :=
  fun i => if i < n then src i else dst i

/-- The function `ensurebuffer(L, file)` of liolib.c, lines 76-87. -/
def ensurebuffer (LUAL_BUFFERSIZE : Nat) (read : luaL_FileRead) (file : File) : File :=
  if file.bufferLength = 0 then
    let r := read file.handle LUAL_BUFFERSIZE
    { handle := r.2,
      buffer := storeBytes file.buffer r.1,
      bufferLength := r.1.length,
      bufferPos := 0 }
  else file

/-- The do-while loop of `readfile`, liolib.c lines 114-127: the file, the
memory at `ptr` and `remaining` when the loop exits. -/
def readfile_loop (LUAL_BUFFERSIZE : Nat) (read : luaL_FileRead) :
    Nat → File → Mem → Nat → Option (File × Mem × Nat)
  | 0, _, _, _ => none
  | fuel + 1, file, ptr, remaining =>
    let s := if remaining > file.bufferLength then file.bufferLength else remaining
    let ptr1 := memcpy ptr (fun i => file.buffer (file.bufferPos + i)) s
    let file1 : File :=
      { file with bufferLength := file.bufferLength - s, bufferPos := file.bufferPos + s }
    let remaining1 := remaining - s
    let file2 := ensurebuffer LUAL_BUFFERSIZE read file1
    if remaining1 > 0 ∧ file2.bufferLength ≠ 0 then
      readfile_loop LUAL_BUFFERSIZE read fuel file2 ptr1 remaining1
    else some (file2, ptr1, remaining1)

/-- The function `readfile(L, file, ptr, size)` of liolib.c, lines 110-130: the
returned count, the file and the memory at `ptr` after the call. -/
def readfile (LUAL_BUFFERSIZE : Nat) (read : luaL_FileRead) (fuel : Nat)
    (file : File) (ptr : Mem) (size : Nat) : Option (Nat × File × Mem) :=
  match readfile_loop LUAL_BUFFERSIZE read fuel file ptr size with
  | none => none
  | some (file1, ptr1, remaining) => some (size - remaining, file1, ptr1)

/-- The inner while loop of `readfileline`, liolib.c lines 166-184.  The flag
is true when the loop left the function through `return dst` at the end of a
line; then follow the file, the memory at `dst`, the offset `p - dst` and `num`. -/
def readfileline_scan : Nat → File → Mem → Nat → Int → Option (Bool × File × Mem × Nat × Int)
  | 0, _, _, _, _ => none
  | fuel + 1, file, dst, p, num =>
    if file.bufferLength ≠ 0 ∧ num ≠ 0 then
      let c := file.buffer file.bufferPos
      let dst1 := if c ≠ 13 then Function.update dst p c else dst
      let p1 := if c ≠ 13 then p + 1 else p
      let num1 := if c ≠ 13 then num - 1 else num
      let file1 : File :=
        { file with bufferPos := file.bufferPos + 1, bufferLength := file.bufferLength - 1 }
      if c = 10 then some (true, file1, Function.update dst1 p1 0, p1, num1)
      else readfileline_scan fuel file1 dst1 p1 num1
    else some (false, file, dst, p, num)

/-- The outer while loop of `readfileline` with the code after it, liolib.c
lines 148-190.  The flag is true when `dst` is returned and false when `NULL`
is.  The inner loop runs at most `bufferLength` times. -/
def readfileline_loop (LUAL_BUFFERSIZE : Nat) (read : luaL_FileRead) :
    Nat → File → Mem → Nat → Int → Option (Bool × File × Mem)
  | 0, _, _, _, _ => none
  | fuel + 1, file, dst, p, num =>
    if num ≠ 0 then
      let file1 := ensurebuffer LUAL_BUFFERSIZE read file
      if file1.bufferLength = 0 then
        if p = 0 then some (false, file1, Function.update dst p 0)
        else some (true, file1, Function.update dst p 0)
      else
        match readfileline_scan (file1.bufferLength + 1) file1 dst p num with
        | none => none
        | some (true, file2, dst2, _, _) => some (true, file2, dst2)
        | some (false, file2, dst2, p2, num2) =>
          readfileline_loop LUAL_BUFFERSIZE read fuel file2 dst2 p2 num2
    else some (true, file, Function.update dst p 0)

/-- The function `readfileline(L, file, dst, num)` of liolib.c, lines 143-192:
whether `dst` (true) or `NULL` (false) is returned, the file and the memory at
`dst` after the call. -/
def readfileline (LUAL_BUFFERSIZE : Nat) (read : luaL_FileRead) (fuel : Nat)
    (file : File) (dst : Mem) (num : Int) : Option (Bool × File × Mem) :=
  readfileline_loop LUAL_BUFFERSIZE read fuel file dst 0 num

/-- The bytes a reader of the file has yet to see, in stream order: the unread
part of the buffer, then the rest of the stream. -/
def File.unread (file : File) : List Byte :=
  (List.range file.bufferLength).map (fun i => file.buffer (file.bufferPos + i)) ++ file.handle

/-- A file of 514 bytes ending in "abc" of which 511 bytes have been read
through a buffer of 512: "a" is the last byte in the buffer, "bc" is still in
the stream. -/
def sampleFileMid : File :=
  { handle := [98, 99],
    buffer := fun i => if i = 511 then 97 else 120,
    bufferLength := 1,
    bufferPos := 511 }

/-- A file holding "abc" that has just been opened: nothing is buffered. -/
def sampleFileFresh : File :=
  { handle := [97, 98, 99],
    buffer := fun _ => 0,
    bufferLength := 0,
    bufferPos := 0 }

/-- Destination memory in which every byte is 255 before the call. -/
def sampleDst : Mem := fun _ => 255

/-- The memory `dst` after a callback has stored `bytes` at `dst + off`. -/
def storeBytesAt (dst : Mem) (off : Nat) (bytes : List Byte) : Mem :=
  fun i => if off ≤ i ∧ i < off + bytes.length then bytes.getD (i - off) 0 else dst i

/-- The C library call `memcpy(buffer, buffer + pos, n)` on two ranges of one
array, as in `fillbuffer`.  The ranges `[0, n)` and `[pos, pos + n)` overlap
when `pos < n`; ISO C leaves the behaviour of `memcpy` on overlapping ranges
undefined and the result is `none`.  On disjoint ranges the first `n` bytes
become the `n` bytes that stand at `pos`. -/
def memcpy_within (buffer : Mem) (pos n : Nat) : Option Mem :=
  if pos < n then none
  else some (fun i => if i < n then buffer (pos + i) else buffer i)

/-- One copy order that a C library may use for `memcpy(buffer, buffer + pos, n)`:
byte by byte from the highest address down.  The last argument counts the bytes
copied so far; the whole call is `memcpy_descending buffer pos n n`. -/
def memcpy_descending (buffer : Mem) (pos n : Nat) : Nat → Mem
  | 0 => buffer
  | k + 1 =>
    let m := memcpy_descending buffer pos n k
    Function.update m (n - 1 - k) (m (pos + (n - 1 - k)))

/-- The function `fillbuffer(L, file)` of liolib.c, lines 90-106; `none` when
its `memcpy` is undefined.  The `size_t` difference
`LUAL_BUFFERSIZE - bufferLength` does not wrap as long as `bufferLength` is
within the array. -/
def fillbuffer (LUAL_BUFFERSIZE : Nat) (read : luaL_FileRead) (file : File) : Option File :=
  let remaining := LUAL_BUFFERSIZE - file.bufferLength
  match memcpy_within file.buffer file.bufferPos file.bufferLength with
  | none => none
  | some buffer1 =>
    let r := read file.handle remaining
    some { handle := r.2,
           buffer := storeBytesAt buffer1 file.bufferLength r.1,
           bufferLength := file.bufferLength + r.1.length,
           bufferPos := 0 }

/-- A read callback delivers the bytes of the underlying stream in order: what
it stores followed by what it leaves is the stream it found. -/
def deliversInOrder (read : luaL_FileRead) : Prop :=
  ∀ handle size, (read handle size).1 ++ (read handle size).2 = handle

/-- A read callback returns at most the requested count. -/
def returnsAtMost (read : luaL_FileRead) : Prop :=
  ∀ handle size, (read handle size).1.length ≤ size

/-- A read callback returns 0 only at end of file (or when asked for nothing). -/
def zeroOnlyAtEof (read : luaL_FileRead) : Prop :=
  ∀ handle size, 0 < size → handle ≠ [] → (read handle size).1 ≠ []

/-- The file after `read_number` has taken "1" from a stream that held "1 2"
and a newline: the whole stream is in the buffer, " 2" and the newline are
unread at offset 1. -/
def sampleFileSecondNumber : File :=
  { handle := [],
    buffer := storeBytes (fun _ => 0) [49, 32, 50, 10],
    bufferLength := 3,
    bufferPos := 1 }

/-- A file with "cd" unread at offset 2 of its buffer and "ef" in the stream. -/
def sampleFileDisjoint : File :=
  { handle := [101, 102],
    buffer := fun i => 97 + i,
    bufferLength := 2,
    bufferPos := 2 }

/-- The C library call `strlen(p)` on an area of `size` bytes: the index of the
first NUL, or `none` when the area holds no NUL, so that the scan leaves it. -/
def strlen (p : Mem) (size : Nat) : Option Nat :=
  (List.range size).find? (fun i => decide (p i = 0))

/-- Modelled from the spec: the string buffer `luaL_Buffer` of `lauxlib.h`,
which is not among the sources and on which the spec is silent; the contract
is that of the Lua 5.1 manual.  `luaL_prepbuffer` returns the area `buffer` of
`LUAL_BUFFERSIZE` bytes, `luaL_addsize(&b, n)` appends its first `n` bytes to
the string built so far (`added`), `luaL_pushresult` yields that string. -/
structure luaL_Buffer where
  added : List Byte
  buffer : Mem

/-- How a call of `read_line` ends: it returns `status` with `line` as the
string left on the Lua stack, or the terminator that `readfileline` stored is
not within the `LUAL_BUFFERSIZE` bytes of the area of `luaL_prepbuffer`. -/
inductive LineResult where
  | returned (status : Int) (line : List Byte) (file : File)
  | overrun (file : File)

/-- Whether the call left the area of `luaL_prepbuffer`. -/
def LineResult.overran : LineResult → Bool
  | .returned _ _ _ => false
  | .overrun _ => true

/-- The loop of `read_line`, liolib.c lines 506-526. -/
def read_line_loop (LUAL_BUFFERSIZE : Nat) (read : luaL_FileRead) :
    Nat → File → luaL_Buffer → Option LineResult
  | 0, _, _ => none
  | fuel + 1, f, b =>
    match readfileline LUAL_BUFFERSIZE read (fuel + 1) f b.buffer LUAL_BUFFERSIZE with
    | none => none
    | some (false, f1, _) => some (.returned (if b.added.length > 0 then 1 else 0) b.added f1)
    | some (true, f1, p) =>
      match strlen p LUAL_BUFFERSIZE with
      | none => some (.overrun f1)
      | some l =>
        if l = 0 ∨ p (l - 1) ≠ 10 then
          read_line_loop LUAL_BUFFERSIZE read fuel f1
            { added := b.added ++ (List.range l).map p, buffer := p }
        else
          some (.returned 1 (b.added ++ (List.range (l - 1)).map p) f1)

/-- The function `read_line(L, f)` of liolib.c, lines 502-527.  The area of the
local `luaL_Buffer` starts with the arbitrary content `scratch`. -/
def read_line (LUAL_BUFFERSIZE : Nat) (read : luaL_FileRead) (fuel : Nat)
    (f : File) (scratch : Mem) : Option LineResult :=
  read_line_loop LUAL_BUFFERSIZE read fuel f { added := [], buffer := scratch }

/-- The statuses and lines of `n` successive calls of `read_line` on one file;
`none` when a call runs out of fuel or leaves the area of `luaL_prepbuffer`. -/
def read_line_calls (LUAL_BUFFERSIZE : Nat) (read : luaL_FileRead) (fuel : Nat)
    (scratch : Mem) : Nat → File → Option (List (Int × List Byte))
  | 0, _ => some []
  | n + 1, f =>
    match read_line LUAL_BUFFERSIZE read fuel f scratch with
    | some (.returned status line f1) =>
      (read_line_calls LUAL_BUFFERSIZE read fuel scratch n f1).map (fun r => (status, line) :: r)
    | _ => none

/-- A freshly opened file on the stream `content`. -/
def freshFile (content : List Byte) : File :=
  { handle := content,
    buffer := fun _ => 0,
    bufferLength := 0,
    bufferPos := 0 }

/-! ## Theorems about Value.cpp -/

/-- C1: `Value_GetMetatable(L, v)` returns the metatable field of the referenced
object when `v` is tagged table or user-data and the per-type slot
`L->metatable[Value_GetType(v)]` for every other tag (the slot index being in
range, as the source asserts), and the machine state after the call is the
state before it. -/
theorem Value_GetMetatable_resolves (NUM_TYPES : Int) (Value_GetType : Value → Int)
    (M : Machine) (v : Value)
    (hty : v.tag ≠ .TAG_TABLE → v.tag ≠ .TAG_USERDATA →
      0 ≤ Value_GetType v ∧ Value_GetType v < NUM_TYPES) :
    Value_GetMetatable NUM_TYPES Value_GetType M v =
      some (if v.tag = .TAG_TABLE then (M.tables v.payload).metatable
            else if v.tag = .TAG_USERDATA then (M.userDatas v.payload).metatable
            else M.L.metatable (Value_GetType v).toNat, M) := by
  obtain ⟨tag, payload⟩ := v
  cases tag <;> simp_all [Value_GetMetatable, Value.table, Value.userData]

/-- Witness of C1: a string value resolves to the per-type slot of strings and
leaves the sample machine as it was. -/
theorem Value_GetMetatable_resolves_witness :
    (0 ≤ sampleGetType ⟨.TAG_STRING, 11⟩ ∧ sampleGetType ⟨.TAG_STRING, 11⟩ < 9) ∧
    Value_GetMetatable 9 sampleGetType sampleMachine ⟨.TAG_STRING, 11⟩ =
      some (some 40, sampleMachine) :=
  ⟨by decide,
   Value_GetMetatable_resolves 9 sampleGetType sampleMachine ⟨.TAG_STRING, 11⟩
     (fun _ _ => by decide)⟩

/-- C2: round trip.  For every value `v` whose `Value_GetType` is in
`[0, NUM_TYPES)` and every table reference `t`, null included,
`Value_SetMetatable(L, v, t)` returns and afterwards `Value_GetMetatable(L, v)`
returns exactly `t`. -/
theorem Value_SetMetatable_GetMetatable (NUM_TYPES : Int) (Value_GetType : Value → Int)
    (M : Machine) (v : Value) (t : Option Addr)
    (hty : 0 ≤ Value_GetType v ∧ Value_GetType v < NUM_TYPES) :
    ∃ M', Value_SetMetatable NUM_TYPES Value_GetType M v t = some M' ∧
      Value_GetMetatable NUM_TYPES Value_GetType M' v = some (t, M') := by
  obtain ⟨tag, payload⟩ := v
  cases tag <;> cases t <;>
    simp [Value_SetMetatable, Value_GetMetatable, Value.table, Value.userData,
      Gc_WriteBarrier, hty]

/-- Witness of C2: setting and reading back the metatable of a number. -/
theorem Value_SetMetatable_GetMetatable_witness :
    (0 ≤ sampleGetType ⟨.TAG_NUMBER, 5⟩ ∧ sampleGetType ⟨.TAG_NUMBER, 5⟩ < 9) ∧
    ∃ M', Value_SetMetatable 9 sampleGetType sampleMachine ⟨.TAG_NUMBER, 5⟩ (some 2) = some M' ∧
      Value_GetMetatable 9 sampleGetType M' ⟨.TAG_NUMBER, 5⟩ = some (some 2, M') :=
  ⟨by decide,
   Value_SetMetatable_GetMetatable 9 sampleGetType sampleMachine ⟨.TAG_NUMBER, 5⟩ (some 2)
     (by decide)⟩

/-- C3: all values of one primitive type share one metatable.  After
`Value_SetMetatable(L, v, t)` on a value `v` that is neither table nor
user-data (its type index in range, as the source asserts),
`Value_GetMetatable(L, w)` returns `t` for every `w` that is neither table nor
user-data and has the type of `v`, whatever its payload. -/
theorem Value_SetMetatable_shared (NUM_TYPES : Int) (Value_GetType : Value → Int)
    (M : Machine) (v : Value) (t : Option Addr)
    (hv1 : v.tag ≠ .TAG_TABLE) (hv2 : v.tag ≠ .TAG_USERDATA)
    (hty : 0 ≤ Value_GetType v ∧ Value_GetType v < NUM_TYPES) :
    ∃ M', Value_SetMetatable NUM_TYPES Value_GetType M v t = some M' ∧
      ∀ w : Value, w.tag ≠ .TAG_TABLE → w.tag ≠ .TAG_USERDATA →
        Value_GetType w = Value_GetType v →
        Value_GetMetatable NUM_TYPES Value_GetType M' w = some (t, M') := by
  obtain ⟨tag, payload⟩ := v
  cases tag <;> simp at hv1 hv2 <;>
    · simp only [Value_SetMetatable, hty, and_self, if_true]
      refine ⟨_, rfl, ?_⟩
      rintro ⟨wtag, wpayload⟩ hw1 hw2 hw
      cases wtag <;> simp at hw1 hw2 <;>
        · simp only [Value_GetMetatable]
          rw [hw]
          simp [hty]

/-- Witness of C3: a metatable set through one string is read through another. -/
theorem Value_SetMetatable_shared_witness :
    ∃ M', Value_SetMetatable 9 sampleGetType sampleMachine ⟨.TAG_STRING, 11⟩ (some 2) = some M' ∧
      Value_GetMetatable 9 sampleGetType M' ⟨.TAG_STRING, 12⟩ = some (some 2, M') := by
  obtain ⟨M', h, hw⟩ :=
    Value_SetMetatable_shared 9 sampleGetType sampleMachine ⟨.TAG_STRING, 11⟩ (some 2)
      (by decide) (by decide) (by decide)
  exact ⟨M', h, hw ⟨.TAG_STRING, 12⟩ (by decide) (by decide) (by decide)⟩

/-- C4: per-instance isolation.  For a table or user-data value `v`,
`Value_SetMetatable(L, v, t)` returns and changes only the metatable field of
the object `v` refers to: the per-type slots, every other table and user-data
object, the other fields of the object itself, every environment field and
every closure are as before, so `Value_GetMetatable` of any value that does not
refer to that object returns what it returned before. -/
theorem Value_SetMetatable_instance_frame (NUM_TYPES : Int) (Value_GetType : Value → Int)
    (M : Machine) (v : Value) (t : Option Addr)
    (hv : v.tag = .TAG_TABLE ∨ v.tag = .TAG_USERDATA) :
    ∃ M', Value_SetMetatable NUM_TYPES Value_GetType M v t = some M' ∧
      M'.L.metatable = M.L.metatable ∧
      (∀ a, ¬ (v.tag = .TAG_TABLE ∧ a = v.payload) → M'.tables a = M.tables a) ∧
      (∀ a, ¬ (v.tag = .TAG_USERDATA ∧ a = v.payload) → M'.userDatas a = M.userDatas a) ∧
      (∀ a, (M'.tables a).numNodes = (M.tables a).numNodes ∧
        (M'.tables a).nodes = (M.tables a).nodes) ∧
      (∀ a, (M'.userDatas a).env = (M.userDatas a).env) ∧
      M'.closures = M.closures ∧
      (∀ w : Value, ¬ (w.tag = v.tag ∧ w.payload = v.payload) →
        (Value_GetMetatable NUM_TYPES Value_GetType M' w).map Prod.fst =
          (Value_GetMetatable NUM_TYPES Value_GetType M w).map Prod.fst) := by
  obtain ⟨tag, payload⟩ := v
  rcases hv with hv | hv <;> simp only at hv <;> subst hv <;> cases t <;>
    refine ⟨_, rfl, rfl, ?_, ?_, ?_, ?_, rfl, ?_⟩
  all_goals first
    | (intro a ha
       simp only [true_and, false_and, not_false_eq_true] at ha
       first
         | rfl
         | simp [Gc_WriteBarrier, Value.table, Value.userData, Function.update_noteq ha])
    | (intro a
       by_cases h : a = payload
       · subst h
         simp [Gc_WriteBarrier, Value.table, Value.userData]
       · simp [Gc_WriteBarrier, Value.table, Value.userData, Function.update_noteq h])
    | (rintro ⟨wtag, wpayload⟩ hw
       cases wtag <;>
         simp_all [Value_GetMetatable, Gc_WriteBarrier, Value.table, Value.userData,
           Function.update_noteq])

/-- Witness of C4: setting the metatable of the table at address 1 leaves the
per-type slots and the metatable read through a string alone. -/
theorem Value_SetMetatable_instance_frame_witness :
    ∃ M', Value_SetMetatable 9 sampleGetType sampleMachine ⟨.TAG_TABLE, 1⟩ (some 3) = some M' ∧
      M'.L.metatable = sampleMachine.L.metatable ∧
      (Value_GetMetatable 9 sampleGetType M' ⟨.TAG_STRING, 11⟩).map Prod.fst =
        (Value_GetMetatable 9 sampleGetType sampleMachine ⟨.TAG_STRING, 11⟩).map Prod.fst := by
  obtain ⟨M', h, hL, _, _, _, _, _, hw⟩ :=
    Value_SetMetatable_instance_frame 9 sampleGetType sampleMachine ⟨.TAG_TABLE, 1⟩ (some 3)
      (Or.inl rfl)
  exact ⟨M', h, hL, hw ⟨.TAG_STRING, 11⟩ (by decide)⟩

/-- C5, as stated, fails: setting a non-null metatable on a function value
stores it in the per-type slot and makes no write-barrier call, where the claim
expects one call naming (closure 7, table 3). -/
theorem Value_SetMetatable_function_no_barrier :
    (Value_SetMetatable 9 sampleGetType sampleMachine ⟨.TAG_FUNCTION, 7⟩ (some 3)).map
        Machine.barriers = some [] ∧
    (Value_SetMetatable 9 sampleGetType sampleMachine ⟨.TAG_FUNCTION, 7⟩ (some 3)).map
        Machine.barriers ≠ some (sampleMachine.barriers ++ [(7, some 3)]) := by
  constructor <;> decide

/-- C5, amended: for every table or user-data value `v` and every non-null
table `t`, `Value_SetMetatable(L, v, t)` invokes the collector write barrier
exactly once, naming the pair (object referenced by `v`, `t`). -/
theorem Value_SetMetatable_barrier (NUM_TYPES : Int) (Value_GetType : Value → Int)
    (M : Machine) (v : Value) (t : Addr)
    (hv : v.tag = .TAG_TABLE ∨ v.tag = .TAG_USERDATA) :
    ∃ M', Value_SetMetatable NUM_TYPES Value_GetType M v (some t) = some M' ∧
      M'.barriers = M.barriers ++ [(v.payload, some t)] := by
  obtain ⟨tag, payload⟩ := v
  rcases hv with hv | hv <;> simp only at hv <;> subst hv <;> exact ⟨_, rfl, rfl⟩

/-- Witness of C5, amended: one barrier call for the user-data at address 5. -/
theorem Value_SetMetatable_barrier_witness :
    ∃ M', Value_SetMetatable 9 sampleGetType sampleMachine ⟨.TAG_USERDATA, 5⟩ (some 3) = some M' ∧
      M'.barriers = [(5, some 3)] :=
  Value_SetMetatable_barrier 9 sampleGetType sampleMachine ⟨.TAG_USERDATA, 5⟩ 3 (Or.inr rfl)

/-- C6: for every function or user-data value `v` and every non-null table `t`,
`Value_SetEnv(L, v, t)` invokes the collector write barrier exactly once, with
holder the object `v` refers to and referent `t`, and makes no other call. -/
theorem Value_SetEnv_barrier (M : Machine) (v : Value) (t : Addr)
    (hv : v.tag = .TAG_FUNCTION ∨ v.tag = .TAG_USERDATA) :
    ∃ M', Value_SetEnv M v (some t) = some (1, M') ∧
      M'.barriers = M.barriers ++ [(v.payload, some t)] := by
  obtain ⟨tag, payload⟩ := v
  rcases hv with hv | hv <;> simp only at hv <;> subst hv <;> exact ⟨_, rfl, rfl⟩

/-- Witness of C6: one barrier call for the closure at address 7. -/
theorem Value_SetEnv_barrier_witness :
    ∃ M', Value_SetEnv sampleMachine ⟨.TAG_FUNCTION, 7⟩ (some 3) = some (1, M') ∧
      M'.barriers = [(7, some 3)] :=
  Value_SetEnv_barrier sampleMachine ⟨.TAG_FUNCTION, 7⟩ 3 (Or.inl rfl)

/-- C7: for every value `v` whose tag is not function, user-data or thread and
every table `t`, `Value_SetEnv(L, v, t)` returns 0 without failing and the
machine state after the call (VM state, objects, write-barrier record) is the
state before it. -/
theorem Value_SetEnv_unsupported (M : Machine) (v : Value) (t : Option Addr)
    (h1 : v.tag ≠ .TAG_FUNCTION) (h2 : v.tag ≠ .TAG_USERDATA) (h3 : v.tag ≠ .TAG_THREAD) :
    Value_SetEnv M v t = some (0, M) := by
  obtain ⟨tag, payload⟩ := v
  cases tag <;> simp_all [Value_SetEnv]

/-- Witness of C7: a table value does not take an environment. -/
theorem Value_SetEnv_unsupported_witness :
    Value_SetEnv sampleMachine ⟨.TAG_TABLE, 1⟩ (some 3) = some (0, sampleMachine) :=
  Value_SetEnv_unsupported sampleMachine ⟨.TAG_TABLE, 1⟩ (some 3)
    (by decide) (by decide) (by decide)

/-- C8: round trip.  For every function or user-data value `v` and every table
`t`, `Value_SetEnv(L, v, t)` returns 1 and afterwards `Value_GetEnv(v)` returns
exactly `t`, while the metatable of the object, every metatable field and the
per-type slots are unchanged; for every value `w` whose tag is not function,
user-data or thread, `Value_GetEnv(w)` returns null. -/
theorem Value_SetEnv_GetEnv (NUM_TYPES : Int) (Value_GetType : Value → Int)
    (M : Machine) (v : Value) (t : Option Addr) (w : Value)
    (hv : v.tag = .TAG_FUNCTION ∨ v.tag = .TAG_USERDATA)
    (hw1 : w.tag ≠ .TAG_FUNCTION) (hw2 : w.tag ≠ .TAG_USERDATA) (hw3 : w.tag ≠ .TAG_THREAD) :
    (∃ M', Value_SetEnv M v t = some (1, M') ∧
      Value_GetEnv M' v = some (t, M') ∧
      (Value_GetMetatable NUM_TYPES Value_GetType M' v).map Prod.fst =
        (Value_GetMetatable NUM_TYPES Value_GetType M v).map Prod.fst ∧
      (∀ a, (M'.userDatas a).metatable = (M.userDatas a).metatable) ∧
      M'.tables = M.tables ∧
      M'.L.metatable = M.L.metatable) ∧
    Value_GetEnv M w = some (none, M) := by
  constructor
  · obtain ⟨tag, payload⟩ := v
    rcases hv with hv | hv <;> simp only at hv <;> subst hv <;>
      refine ⟨_, rfl, ?_, ?_, ?_, rfl, rfl⟩
    · simp [Value_GetEnv, Gc_WriteBarrier, Value.closure]
    · simp only [Value_GetMetatable, Gc_WriteBarrier]
      split <;> rfl
    · intro a
      rfl
    · simp [Value_GetEnv, Gc_WriteBarrier, Value.userData]
    · simp [Value_GetMetatable, Gc_WriteBarrier, Value.userData]
    · intro a
      by_cases h : a = payload
      · subst h
        simp [Gc_WriteBarrier, Value.userData]
      · simp [Gc_WriteBarrier, Value.userData, Function.update_noteq h]
  · obtain ⟨tag, payload⟩ := w
    cases tag <;> simp_all [Value_GetEnv]

/-- Witness of C8: the closure at address 7 takes table 3 as environment and a
number has none. -/
theorem Value_SetEnv_GetEnv_witness :
    (∃ M', Value_SetEnv sampleMachine ⟨.TAG_FUNCTION, 7⟩ (some 3) = some (1, M') ∧
      Value_GetEnv M' ⟨.TAG_FUNCTION, 7⟩ = some (some 3, M')) ∧
    Value_GetEnv sampleMachine ⟨.TAG_NUMBER, 5⟩ = some (none, sampleMachine) := by
  obtain ⟨⟨M', h1, h2, _⟩, h3⟩ :=
    Value_SetEnv_GetEnv 9 sampleGetType sampleMachine ⟨.TAG_FUNCTION, 7⟩ (some 3)
      ⟨.TAG_NUMBER, 5⟩ (Or.inl rfl) (by decide) (by decide) (by decide)
  exact ⟨⟨M', h1, h2⟩, h3⟩

/-! ## Theorems about liolib.c -/

/-- C9 fails on the code: `readfile` never advances `ptr`, so a request that
spans a buffer refill copies the refilled bytes over the start of `ptr` again.
With "a" buffered and "bc" in the stream, `readfile(file, ptr, 2)` returns 2,
but `ptr[0..2)` holds "b" followed by the untouched byte 255, not "ab". -/
theorem readfile_refill_overwrites :
    sampleFileMid.bufferPos + sampleFileMid.bufferLength ≤ 512 ∧
    sampleFileMid.unread.take 2 = [97, 98] ∧
    (readfile 512 stdio_read 3 sampleFileMid sampleDst 2).map
        (fun r => (r.1, [r.2.2 0, r.2.2 1])) = some (2, [98, 255]) := by
  refine ⟨?_, ?_, ?_⟩ <;> decide

/-- C10 fails on the code: `readfileline` stores up to `num` characters and then
the terminating NUL.  On a fresh file holding "abc", `readfileline(file, dst, 2)`
returns `dst` with "ab" in `dst[0..2)` and the NUL in `dst[2]`, one byte past
the `num` bytes of `dst`; `fgets` stores "a" and the NUL in `dst[1]`. -/
theorem readfileline_stores_num_chars :
    (readfileline 512 stdio_read 2 sampleFileFresh sampleDst 2).map
        (fun r => (r.1, [r.2.2 0, r.2.2 1, r.2.2 2], r.2.1.unread)) =
      some (true, [97, 98, 0], [99]) := by
  decide

/-- The list of the first `bytes.length` cells after `bytes` were stored at
offset `off` is `bytes`. -/
theorem map_storeBytesAt (dst : Mem) (off : Nat) (bytes : List Byte) :
    (List.range bytes.length).map (fun i => storeBytesAt dst off bytes (off + i)) = bytes := by
  apply List.ext_getElem
  · simp
  · intro i h1 h2
    simp only [List.length_map, List.length_range] at h1
    simp [storeBytesAt, h1, List.getD_eq_getElem?_getD, List.getElem?_eq_getElem h1]

/-- The list of the first `bytes.length` cells after `bytes` were stored at the
start is `bytes`. -/
theorem map_storeBytes (dst : Mem) (bytes : List Byte) :
    (List.range bytes.length).map (fun i => storeBytes dst bytes (0 + i)) = bytes := by
  apply List.ext_getElem
  · simp
  · intro i h1 h2
    simp only [List.length_map, List.length_range] at h1
    simp [storeBytes, h1, List.getD_eq_getElem?_getD, List.getElem?_eq_getElem h1]

/-- What a callback that delivers in order stores is a prefix of the stream and
what it leaves is the rest. -/
theorem deliversInOrder_take_drop (read : luaL_FileRead) (hord : deliversInOrder read)
    (handle : List Byte) (size : Nat) :
    (read handle size).1 = handle.take (read handle size).1.length ∧
    (read handle size).2 = handle.drop (read handle size).1.length := by
  have h := hord handle size
  generalize (read handle size).1 = d at h ⊢
  generalize (read handle size).2 = r at h ⊢
  subst h
  simp

/-- The callback `stdio_read` delivers in order, at most the requested count,
and nothing only at end of file. -/
theorem stdio_read_wellBehaved :
    deliversInOrder stdio_read ∧ returnsAtMost stdio_read ∧ zeroOnlyAtEof stdio_read := by
  refine ⟨?_, ?_, ?_⟩
  · intro handle size
    simp [stdio_read]
  · intro handle size
    simp [stdio_read]
  · intro handle size hs hh
    cases handle with
    | nil => exact absurd rfl hh
    | cons a t =>
      cases size with
      | zero => omega
      | succ n => simp [stdio_read]

/-- `ensurebuffer` does not change the bytes still owed to the reader. -/
theorem ensurebuffer_unread (B : Nat) (read : luaL_FileRead) (hord : deliversInOrder read)
    (file : File) : (ensurebuffer B read file).unread = file.unread := by
  unfold ensurebuffer
  split
  · rename_i h0
    simp only [File.unread, h0, List.range_zero, List.map_nil, List.nil_append]
    rw [map_storeBytes]
    exact hord _ _
  · rfl

/-- On disjoint ranges (`bufferLength <= bufferPos`) `fillbuffer` returns and
does what C12 says: with `k` the count read it ends with `bufferPos = 0`, the
previously unread bytes in order in `buffer[0..oldLength)`, the `k` bytes newly
read right after them, `bufferLength = oldLength + k <= LUAL_BUFFERSIZE`, and
the bytes still owed to the reader unchanged. -/
theorem fillbuffer_disjoint (LUAL_BUFFERSIZE : Nat) (read : luaL_FileRead) (file : File)
    (hord : deliversInOrder read) (hmost : returnsAtMost read)
    (hinv : file.bufferPos + file.bufferLength ≤ LUAL_BUFFERSIZE)
    (hdisj : file.bufferLength ≤ file.bufferPos) :
    ∃ f k, fillbuffer LUAL_BUFFERSIZE read file = some f ∧
      k = (read file.handle (LUAL_BUFFERSIZE - file.bufferLength)).1.length ∧
      k ≤ LUAL_BUFFERSIZE - file.bufferLength ∧
      f.bufferPos = 0 ∧
      (∀ i, i < file.bufferLength → f.buffer i = file.buffer (file.bufferPos + i)) ∧
      (∀ j, j < k → f.buffer (file.bufferLength + j) = file.handle.getD j 0) ∧
      f.handle = file.handle.drop k ∧
      f.bufferLength = file.bufferLength + k ∧
      f.bufferLength ≤ LUAL_BUFFERSIZE ∧
      f.unread = file.unread := by
  have hk := hmost file.handle (LUAL_BUFFERSIZE - file.bufferLength)
  have htd := deliversInOrder_take_drop read hord file.handle
    (LUAL_BUFFERSIZE - file.bufferLength)
  have hcopy : memcpy_within file.buffer file.bufferPos file.bufferLength =
      some (fun i => if i < file.bufferLength then file.buffer (file.bufferPos + i)
        else file.buffer i) := by
    simp [memcpy_within, Nat.not_lt.mpr hdisj]
  have hfill : fillbuffer LUAL_BUFFERSIZE read file =
      some { handle := (read file.handle (LUAL_BUFFERSIZE - file.bufferLength)).2,
             buffer := storeBytesAt
               (fun i => if i < file.bufferLength then file.buffer (file.bufferPos + i)
                 else file.buffer i) file.bufferLength
               (read file.handle (LUAL_BUFFERSIZE - file.bufferLength)).1,
             bufferLength := file.bufferLength +
               (read file.handle (LUAL_BUFFERSIZE - file.bufferLength)).1.length,
             bufferPos := 0 } := by
    simp only [fillbuffer, hcopy]
  refine ⟨_, _, hfill, rfl, hk, rfl, ?_, ?_, htd.2, rfl, ?_, ?_⟩
  · intro i hi
    have hi2 : ¬ file.bufferLength ≤ i := by omega
    simp [storeBytesAt, hi2, hi]
  · intro j hj
    simp only [storeBytesAt]
    rw [if_pos ⟨Nat.le_add_right _ _, Nat.add_lt_add_left hj _⟩, Nat.add_sub_cancel_left]
    conv_lhs => rw [htd.1]
    simp only [List.getD_eq_getElem?_getD]
    rw [List.getElem?_take_of_lt hj]
  · show file.bufferLength + _ ≤ LUAL_BUFFERSIZE
    omega
  · simp only [File.unread]
    rw [List.range_add, List.map_append, List.map_map, List.append_assoc]
    congr 1
    · apply List.map_congr_left
      intro i hi
      have hi1 : i < file.bufferLength := List.mem_range.mp hi
      have hi2 : ¬ file.bufferLength ≤ i := by omega
      simp [storeBytesAt, hi2, hi1]
    · have h := map_storeBytesAt
        (fun i => if i < file.bufferLength then file.buffer (file.bufferPos + i)
          else file.buffer i) file.bufferLength
        (read file.handle (LUAL_BUFFERSIZE - file.bufferLength)).1
      have h2 : (List.range (read file.handle (LUAL_BUFFERSIZE - file.bufferLength)).1.length).map
          ((fun i => storeBytesAt
              (fun i => if i < file.bufferLength then file.buffer (file.bufferPos + i)
                else file.buffer i) file.bufferLength
              (read file.handle (LUAL_BUFFERSIZE - file.bufferLength)).1 (0 + i)) ∘
            fun x => file.bufferLength + x) =
          (read file.handle (LUAL_BUFFERSIZE - file.bufferLength)).1 := by
        refine Eq.trans (List.map_congr_left ?_) h
        intro i _
        simp
      rw [h2]
      exact hord _ _

/-- What C12 says of `ensurebuffer` holds: it leaves a non-empty buffer (`full`)
untouched, on an empty one (`empty`) whose stream is not at end of file it ends
with `bufferLength > 0`, and it never changes the bytes still owed to the
reader. -/
theorem ensurebuffer_keeps_unread (LUAL_BUFFERSIZE : Nat) (read : luaL_FileRead)
    (file full empty : File)
    (hsize : 0 < LUAL_BUFFERSIZE)
    (hord : deliversInOrder read) (heof : zeroOnlyAtEof read)
    (hfull : full.bufferLength ≠ 0)
    (hempty : empty.bufferLength = 0) (hstream : empty.handle ≠ []) :
    ensurebuffer LUAL_BUFFERSIZE read full = full ∧
    0 < (ensurebuffer LUAL_BUFFERSIZE read empty).bufferLength ∧
    (ensurebuffer LUAL_BUFFERSIZE read file).unread = file.unread := by
  refine ⟨?_, ?_, ensurebuffer_unread _ _ hord _⟩
  · simp [ensurebuffer, hfull]
  · have h := heof empty.handle LUAL_BUFFERSIZE hsize hstream
    simp only [ensurebuffer, hempty, if_true]
    exact List.length_pos.mpr h

/-- The two helper theorems above at concrete inputs: `fillbuffer` on a file
whose unread bytes "cd" stand at offset 2, and `ensurebuffer` on that file and
on a freshly opened one holding "abc", with `stdio_read` and a buffer of 512
bytes. -/
theorem fillbuffer_disjoint_sample :
    (∃ f, fillbuffer 512 stdio_read sampleFileDisjoint = some f ∧
      f.bufferPos = 0 ∧ f.bufferLength = 4 ∧ f.unread = sampleFileDisjoint.unread) ∧
    ensurebuffer 512 stdio_read sampleFileDisjoint = sampleFileDisjoint ∧
    0 < (ensurebuffer 512 stdio_read sampleFileFresh).bufferLength := by
  obtain ⟨f, k, h, hk, _, h1, _, _, _, h2, _, h3⟩ :=
    fillbuffer_disjoint 512 stdio_read sampleFileDisjoint
      stdio_read_wellBehaved.1 stdio_read_wellBehaved.2.1 (by decide) (by decide)
  obtain ⟨h4, h5, _⟩ :=
    ensurebuffer_keeps_unread 512 stdio_read sampleFileDisjoint sampleFileDisjoint
      sampleFileFresh (by decide) stdio_read_wellBehaved.1 stdio_read_wellBehaved.2.2
      (by decide) (by decide) (by decide)
  have hk2 : k = 2 := by
    rw [hk]
    decide
  exact ⟨⟨f, h, h1, by rw [h2, hk2]; rfl, h3⟩, h4, h5⟩

/-- C12 fails on the code: `fillbuffer` moves the unread bytes to the front with
`memcpy(buffer, buffer + bufferPos, bufferLength)`, whose ranges overlap
whenever `bufferPos < bufferLength`, where ISO C leaves `memcpy` undefined
(`memmove` is the call for overlapping ranges).  After "1" was read from
"1 2" and a newline, `bufferPos = 1` and `bufferLength = 3` satisfy
`bufferPos + bufferLength <= LUAL_BUFFERSIZE` and the ranges overlap: the call
has no defined result, and a `memcpy` copying from the highest address down
leaves three newlines in `buffer[0..3)` where C12 expects the unread " 2" and
newline. -/
theorem fillbuffer_overlapping_memcpy :
    sampleFileSecondNumber.bufferPos + sampleFileSecondNumber.bufferLength ≤ 512 ∧
    sampleFileSecondNumber.bufferPos < sampleFileSecondNumber.bufferLength ∧
    sampleFileSecondNumber.unread = [32, 50, 10] ∧
    (fillbuffer 512 stdio_read sampleFileSecondNumber).isNone = true ∧
    (List.range 3).map (memcpy_descending sampleFileSecondNumber.buffer
      sampleFileSecondNumber.bufferPos sampleFileSecondNumber.bufferLength
      sampleFileSecondNumber.bufferLength) = [10, 10, 10] := by
  refine ⟨?_, ?_, ?_, ?_, ?_⟩ <;> decide

/-- The inner loop of `readfileline` on a buffer holding `k` copies of an
ordinary character `c`, with `num = k`: it stores them all from offset `p` on,
empties the buffer and leaves `num = 0`, writing nothing below `p`. -/
theorem readfileline_scan_run (c : Byte) (hc13 : c ≠ 13) (hc10 : c ≠ 10) :
    ∀ (k : Nat) (file : File) (dst : Mem) (p : Nat),
      file.bufferLength = k →
      (∀ i, i < k → file.buffer (file.bufferPos + i) = c) →
      ∃ file1 dst1,
        readfileline_scan (k + 1) file dst p (k : Int) = some (false, file1, dst1, p + k, 0) ∧
        file1.bufferLength = 0 ∧
        (∀ i, i < k → dst1 (p + i) = c) ∧
        (∀ j, j < p → dst1 j = dst j) := by
  intro k
  induction k with
  | zero =>
    intro file dst p hlen _
    refine ⟨file, dst, ?_, hlen, ?_, ?_⟩
    · simp [readfileline_scan]
    · intro i hi
      omega
    · intro j _
      rfl
  | succ k ih =>
    intro file dst p hlen hbuf
    have h0 : file.buffer file.bufferPos = c := by
      have := hbuf 0 (Nat.succ_pos k)
      simpa using this
    obtain ⟨file1, dst1, hrun, hlen1, hdst1, hframe1⟩ :=
      ih { file with bufferPos := file.bufferPos + 1, bufferLength := file.bufferLength - 1 }
        (Function.update dst p c) (p + 1) (by simp [hlen])
        (by
          intro i hi
          have := hbuf (i + 1) (by omega)
          simpa [Nat.add_assoc, Nat.add_comm 1 i] using this)
    refine ⟨file1, dst1, ?_, hlen1, ?_, ?_⟩
    · rw [readfileline_scan]
      have hnum : ((k + 1 : Nat) : Int) ≠ 0 := by omega
      have hsub : ((k + 1 : Nat) : Int) - 1 = (k : Int) := by omega
      simp only [hlen, h0, hc13, hc10, hnum, hsub, ne_eq, not_false_eq_true, and_self,
        if_true, if_false, Nat.succ_ne_zero]
      rw [hlen] at hrun
      rw [hrun]
      simp [Nat.add_assoc, Nat.add_comm 1 k]
    · intro i hi
      cases i with
      | zero =>
        rw [Nat.add_zero, hframe1 p (Nat.lt_succ_self p)]
        simp
      | succ i =>
        have := hdst1 i (by omega)
        simpa [Nat.add_assoc, Nat.add_comm 1 i] using this
    · intro j hj
      rw [hframe1 j (by omega)]
      exact Function.update_noteq (by omega) _ _

/-- When no byte of the area is NUL, `strlen` leaves the area. -/
theorem strlen_none (p : Mem) (size : Nat) (h : ∀ i, i < size → p i ≠ 0) :
    strlen p size = none := by
  simp only [strlen, List.find?_eq_none, List.mem_range, decide_eq_true_eq]
  exact h

/-- As `read_line` calls it, `readfileline` on a freshly opened file whose
stream starts with `LUAL_BUFFERSIZE` copies of an ordinary character `c`
returns `dst` with those characters in `dst[0..LUAL_BUFFERSIZE)`. -/
theorem readfileline_full_area (B : Nat) (hB : 0 < B) (c : Byte)
    (hc13 : c ≠ 13) (hc10 : c ≠ 10) (rest : List Byte) (scratch : Mem) (fuel : Nat) :
    ∃ f p, readfileline B stdio_read (fuel + 2) (freshFile (List.replicate B c ++ rest))
        scratch (B : Int) = some (true, f, p) ∧
      (∀ i, i < B → p i = c) ∧ p B = 0 := by
  have hens : ensurebuffer B stdio_read (freshFile (List.replicate B c ++ rest)) =
      { handle := rest, buffer := storeBytes (fun _ => 0) (List.replicate B c),
        bufferLength := B, bufferPos := 0 } := by
    simp [ensurebuffer, freshFile, stdio_read, List.take_left', List.drop_left']
  obtain ⟨f, p, hrun, _, hp, _⟩ :=
    readfileline_scan_run c hc13 hc10 B
      { handle := rest, buffer := storeBytes (fun _ => 0) (List.replicate B c),
        bufferLength := B, bufferPos := 0 } scratch 0 rfl
      (by
        intro i hi
        simp [storeBytes, hi, List.getD_eq_getElem?_getD])
  refine ⟨f, Function.update p (0 + B) 0, ?_, ?_, ?_⟩
  · have hnum : (B : Int) ≠ 0 := by omega
    have hlen : B ≠ 0 := by omega
    simp only [readfileline]
    rw [readfileline_loop]
    simp only [hens, hnum, hlen, ne_eq, not_false_eq_true, if_true, if_false, hrun]
    rw [readfileline_loop]
    simp
  · intro i hi
    rw [Function.update_noteq (by omega)]
    simpa using hp i hi
  · show Function.update p (0 + B) 0 B = 0
    rw [Nat.zero_add]
    exact Function.update_same _ _ _

/-- A line of `LUAL_BUFFERSIZE` or more ordinary characters makes `read_line`
leave the area of `luaL_prepbuffer`: the terminator of the first chunk is
stored at `p[LUAL_BUFFERSIZE]`. -/
theorem read_line_long_line (B : Nat) (hB : 0 < B) (c : Byte)
    (hc0 : c ≠ 0) (hc13 : c ≠ 13) (hc10 : c ≠ 10) (rest : List Byte) (scratch : Mem)
    (fuel : Nat) :
    (read_line B stdio_read (fuel + 2) (freshFile (List.replicate B c ++ rest)) scratch).map
      LineResult.overran = some true := by
  obtain ⟨f, p, hrun, hp, _⟩ := readfileline_full_area B hB c hc13 hc10 rest scratch fuel
  have hrun1 : readfileline B stdio_read (fuel + 1 + 1)
      (freshFile (List.replicate B c ++ rest)) scratch (B : Int) = some (true, f, p) := hrun
  have hstr : strlen p B = none := strlen_none p B (fun i hi => by rw [hp i hi]; exact hc0)
  simp only [read_line]
  rw [read_line_loop]
  simp only [hrun1, hstr]
  rfl

set_option maxRecDepth 1000000 in
/-- On short lines `read_line` works as intended: "ab\r\ncd" read through a
buffer of 512 bytes gives "ab", "cd" and then failure, and "abcdef\ngh\n" read
through a buffer of 8 bytes, where "gh" straddles the refill, gives "abcdef",
"gh" and then failure. -/
theorem read_line_calls_short_lines :
    read_line_calls 512 stdio_read 3 sampleDst 3 (freshFile [97, 98, 13, 10, 99, 100]) =
      some [(1, [97, 98]), (1, [99, 100]), (0, [])] ∧
    read_line_calls 8 stdio_read 4 sampleDst 3
        (freshFile [97, 98, 99, 100, 101, 102, 10, 103, 104, 10]) =
      some [(1, [97, 98, 99, 100, 101, 102]), (1, [103, 104]), (0, [])] := by
  constructor <;> decide

/-- C11 fails on the code: `read_line` hands `readfileline` the
`LUAL_BUFFERSIZE` bytes of `luaL_prepbuffer` with `num = LUAL_BUFFERSIZE`.  On a
fresh file whose first line is 512 times "a", with `LUAL_BUFFERSIZE = 512`,
`readfileline` returns `dst` with "a" in all of `p[0..512)` and the terminator
in `p[512]`, so `read_line` leaves the area instead of yielding the line. -/
theorem read_line_overruns_prepbuffer :
    (∃ f p, readfileline 512 stdio_read 2 (freshFile (List.replicate 512 97 ++ [10]))
        sampleDst 512 = some (true, f, p) ∧ (∀ i, i < 512 → p i = 97) ∧ p 512 = 0) ∧
    (read_line 512 stdio_read 2 (freshFile (List.replicate 512 97 ++ [10])) sampleDst).map
      LineResult.overran = some true :=
  ⟨readfileline_full_area 512 (by decide) 97 (by decide) (by decide) [10] sampleDst 0,
   read_line_long_line 512 (by decide) 97 (by decide) (by decide) (by decide) [10] sampleDst 0⟩

end Rocket
